import Mathlib

/-
  Verification of the Gumloop summary parser
  (src/api/services/gumloop_parser.py).

  The Python module is shallowly embedded over `Str := List Char`
  (a Python `str` is a sequence of unicode codepoints).  Each Python
  function is translated into a Lean definition of the same name.
  The module's regular expressions are translated into explicit
  backtracking matchers that follow Python `re` semantics for the
  concrete pattern at hand (greedy/lazy quantifiers, `re.MULTILINE`,
  `re.DOTALL`, `re.IGNORECASE`); the translation of each pattern is
  documented at its definition.

  Note on the source text: the Python file is double-encoded
  ("mojibake").  For example its key-moment dash character class
  consists of the literal codepoints U+00E2, U+20AC, U+201C (the
  UTF-8 bytes of an en dash re-decoded as cp1252) rather than the en
  dash U+2013 itself.  The embedding reproduces the file's literal
  codepoints exactly.
-/

namespace Gumloop

/-- A Python `str` value: its sequence of codepoints. -/
abbrev Str := List Char

/-- Shorthand to turn a Lean string literal into `Str`. -/
def str (s : String) : Str := s.data

/-- Python `\s` / `str.strip()` whitespace (ASCII part; the inputs and
patterns in this module contain no non-ASCII whitespace). -/
def pyIsSpace (c : Char) : Bool :=
  c = ' ' || c = '\t' || c = '\n' || c = '\r' || c = '\x0b' || c = '\x0c'

/-- Python `str.lstrip()`. -/
def lstrip (l : Str) : Str := l.dropWhile pyIsSpace

/-- Python `str.rstrip()`. -/
def rstrip (l : Str) : Str := (l.reverse.dropWhile pyIsSpace).reverse

/-- Python `str.strip()`. -/
def pyStrip (l : Str) : Str := rstrip (lstrip l)

/-- Python `str.strip(ch)` for a single character. -/
def stripChar (ch : Char) (l : Str) : Str :=
  ((l.dropWhile (· = ch)).reverse.dropWhile (· = ch)).reverse

/-- Python `str.lower()` (ASCII case folding; every cased character
appearing in this module's patterns and keys is ASCII). -/
def lowerStr (l : Str) : Str := l.map Char.toLower

/-- Python `sub in s` (substring test). -/
def containsSub (pat : Str) : Str → Bool
  | [] => pat.isEmpty
  | c :: t => pat.isPrefixOf (c :: t) || containsSub pat t

/-- Python `s.find(sub)`: index of the leftmost occurrence
(`none` models `-1`). -/
def findSub (pat : Str) : Str → Option Nat
  | [] => if pat.isEmpty then some 0 else none
  | c :: t =>
    if pat.isPrefixOf (c :: t) then some 0
    else (findSub pat t).map (· + 1)

/-- Python `s.find(sub, start)`. -/
def findSubFrom (pat : Str) (s : Str) (start : Nat) : Option Nat :=
  (findSub pat (s.drop start)).map (· + start)

/-- Python `s.split(sep)` for a single-character separator
(keeps empty parts, `"".split` gives `[""]`). -/
def splitOnChar (sep : Char) : Str → List Str
  | [] => [[]]
  | c :: t =>
    match splitOnChar sep t with
    | [] => [[]]
    | h :: r => if c = sep then [] :: h :: r else (c :: h) :: r

/-- Python `re.split(r'[;,]', s)`-style split at every character of a
class (keeps empty parts). -/
def splitOnAny (seps : List Char) : Str → List Str
  | [] => [[]]
  | c :: t =>
    match splitOnAny seps t with
    | [] => [[]]
    | h :: r => if seps.contains c then [] :: h :: r else (c :: h) :: r

/-- Python `s.count(ch)` for a single character. -/
def countChar (ch : Char) (l : Str) : Nat := l.countP (· = ch)

/-- Python `sep.join(xs)`. -/
def joinSep (sep : Str) : List Str → Str
  | [] => []
  | [x] => x
  | x :: y :: r => x ++ sep ++ joinSep sep (y :: r)

/-- Python `s.replace(old, new)` (all non-overlapping occurrences,
left to right); `fuel` bounds the recursion by the input length. -/
def replaceAllGo (pat repl : Str) : Nat → Str → Str
  | _, [] => []
  | 0, s => s
  | fuel + 1, c :: t =>
    if pat.isPrefixOf (c :: t) && !pat.isEmpty then
      repl ++ replaceAllGo pat repl fuel ((c :: t).drop pat.length)
    else
      c :: replaceAllGo pat repl fuel t

def replaceAll (pat repl s : Str) : Str := replaceAllGo pat repl s.length s

/-- Python `int(s)` for a nonempty digit string. -/
def digitsToNat (l : Str) : Nat :=
  l.foldl (fun acc c => acc * 10 + (c.toNat - '0'.toNat)) 0

/-- `re.sub(r'\s+', ' ', s)`: collapse every whitespace run to a
single space. -/
def collapseWsGo : Nat → Str → Str
  | _, [] => []
  | 0, s => s
  | fuel + 1, c :: t =>
    if pyIsSpace c then ' ' :: collapseWsGo fuel (t.dropWhile pyIsSpace)
    else c :: collapseWsGo fuel t

def collapseWs (l : Str) : Str := collapseWsGo l.length l

/-- Python `x or default` on strings (empty string is falsy). -/
def pyOr (v default : Str) : Str := if v = [] then default else v

/-- Case-insensitive literal prefix test: `patLower` must already be
lowercase. -/
def ciPref (patLower : Str) (s : Str) : Bool :=
  lowerStr (s.take patLower.length) == patLower

/- ------------------------------------------------------------------
   The dataclasses of gumloop_parser.py.
   ------------------------------------------------------------------ -/

structure GumloopKeyMoment where
  timestamp : Str
  insight : Str
deriving DecidableEq, Repr

structure GumloopFramework where
  name : Str
  description : Str
deriving DecidableEq, Repr

structure GumloopPlaybook where
  trigger : Str
  action : Str
deriving DecidableEq, Repr

structure GumloopNovelIdea where
  insight : Str
  score : Nat
deriving DecidableEq, Repr

structure GumloopInsightEnrichment where
  stats_tools_links : List Str
  sentiment : Str
  risks_blockers_questions : List Str
deriving DecidableEq, Repr

/-- A `{"question": ..., "answer": ...}` dict produced by the
flashcard/quiz parsers. -/
structure QAPair where
  question : Str
  answer : Str
deriving DecidableEq, Repr

/-- A `{"term": ..., "definition": ...}` dict produced by the glossary
parser. -/
structure TermDef where
  term : Str
  definition : Str
deriving DecidableEq, Repr

structure GumloopAcceleratedLearningPack where
  tldr100 : Str
  feynman_flashcards : List QAPair
  glossary : List TermDef
  quick_quiz : List QAPair
  novel_idea_meter : List GumloopNovelIdea
deriving DecidableEq, Repr

structure GumloopSummary where
  title : Str
  speakers : List Str
  duration : Str
  channel : Str
  synopsis : Str
  video_url : Str
  language : Str
  generated_on : Str
  version : Str
  tldr : Str
  key_moments : List GumloopKeyMoment
  frameworks : List GumloopFramework
  debunked_assumptions : List Str
  in_practice : List Str
  playbooks : List GumloopPlaybook
  insight_enrichment : Option GumloopInsightEnrichment
  accelerated_learning_pack : Option GumloopAcceleratedLearningPack
  full_content : Str
deriving DecidableEq, Repr

/- ------------------------------------------------------------------
   is_gumloop_summary
   ------------------------------------------------------------------ -/

/-- The `gumloop_markers` list of `is_gumloop_summary` (the second
TL;DR marker carries the file's literal mojibake codepoints). -/
def gumloop_markers : List Str :=
  [ str "## Video Context",
    str "**Title**",
    str "**Speakers**:",
    str "**Synopsis**:",
    str "## TL;DR",
    str "## TL;DR (\u00E2\u2030\u00A4100 words)",
    str "## Key Moments",
    str "## Strategic Frameworks",
    str "## Debunked Assumptions",
    str "## In Practice",
    str "## Playbooks & Heuristics",
    str "## Insight Enrichment",
    str "## Accelerated Learning Pack",
    str "### Feynman Flashcards",
    str "### Glossary",
    str "### Quick Quiz",
    str "### Novel-Idea Meter",
    str "## How to Think Like" ]

/-- `marker_count` of `is_gumloop_summary`: how many markers occur in
the content (case-sensitive substring test). -/
def marker_count (content : Str) : Nat :=
  (gumloop_markers.filter (fun m => containsSub m content)).length

/-- `is_gumloop_summary(content)`: `False` for empty or short input,
else `marker_count >= 4`. -/
def is_gumloop_summary (content : Str) : Bool :=
  if content.isEmpty || content.length < 100 then false
  else decide (4 ≤ marker_count content)

/- ------------------------------------------------------------------
   _extract_sections
   ------------------------------------------------------------------ -/

/-- The fenced-block isolation step of `_extract_sections`: if the
content has a ```markdown fence, keep only its interior, else keep
everything. -/
def extractMarkdownContent (content : Str) : Str :=
  match findSub (str "```markdown") content with
  | none => content
  | some i =>
    let s := content.drop (i + (str "```markdown").length)
    match findSub (str "```") s with
    | none => s
    | some j => s.take j

/-- The `section_headers` list of `_extract_sections`. -/
def section_headers : List Str :=
  [ str "## Video Context",
    str "## TL;DR (\u00E2\u2030\u00A4100 words)",
    str "## Key Moments",
    str "## Strategic Frameworks",
    str "## Debunked Assumptions",
    str "## In Practice",
    str "## Playbooks & Heuristics",
    str "## Insight Enrichment",
    str "### Feynman Flashcards",
    str "### Glossary",
    str "### Quick Quiz",
    str "### Novel-Idea Meter",
    str "## How to Think Like" ]

/-- `header.replace('### ', '').replace('## ', '').lower()`. -/
def cleanHeaderName (h : Str) : Str :=
  lowerStr (replaceAll (str "## ") [] (replaceAll (str "### ") [] h))

/-- The per-header loop of `_extract_sections`: for each header
present in the markdown content, the section body runs from right
after the header to the earliest of (a) the first occurrence, at or
after that point, of a LATER header of the fixed list, (b) the first
`"\n---"`, (c) end of content.  (The Python `in`/`find` pair is fused
into one `findSub`.) -/
def sectionsGo (md : Str) : List Str → List (Str × Str)
  | [] => []
  | h :: rest =>
    (match findSub h md with
     | none => []
     | some start =>
       let contentStart := start + h.length
       let nextIdxs := rest.filterMap (fun nh => findSubFrom nh md contentStart)
       let delimIdx := (findSubFrom (str "\n---") md contentStart).toList
       let stop := (nextIdxs ++ delimIdx).foldl min md.length
       [(cleanHeaderName h, pyStrip ((md.take stop).drop contentStart))])
    ++ sectionsGo md rest

/-- `_extract_sections(content)` as an association list (the Python
dict's keys are pairwise distinct). -/
def _extract_sections (content : Str) : List (Str × Str) :=
  sectionsGo (extractMarkdownContent content) section_headers

/-- `sections.get(key, "")`. -/
def sectGet (sections : List (Str × Str)) (key : Str) : Str :=
  match sections.find? (fun p => decide (p.1 = key)) with
  | some p => p.2
  | none => []

/- ------------------------------------------------------------------
   _extract_field / _extract_speakers
   ------------------------------------------------------------------ -/

/-- The `\s*(.+?)(?=\n|$)` tail shared by several patterns.  `\s*` is
greedy (tried longest first); the lazy group stops at the first
position where the next character is a newline or the input ends.
With `re.DOTALL` the group may itself start with a newline taken from
a backtracked `\s*`; without it the group's characters must all be
non-newlines.  Returns the captured group and the rest of the input
after the match. -/
def dotToEol (dotall : Bool) : Str → Option (Str × Str)
  | [] => none
  | c :: rest =>
    if c = '\n' && !dotall then none
    else
      let cap := c :: rest.takeWhile (fun ch => ch != '\n')
      some (cap, (c :: rest).drop cap.length)

/-- Backtracking loop for `\s*` before the lazy group: `k` whitespace
characters are consumed, longest first. -/
def wsDotGo (dotall : Bool) (u : Str) : Nat → Option (Str × Str)
  | 0 => dotToEol dotall u
  | k + 1 =>
    match dotToEol dotall (u.drop (k + 1)) with
    | some r => some r
    | none => wsDotGo dotall u k

/-- `\s*(.+?)(?=\n|$)` applied at the start of `u`. -/
def wsDotToEol (dotall : Bool) (u : Str) : Option (Str × Str) :=
  wsDotGo dotall u (u.takeWhile pyIsSpace).length

/-- One attempt of `_extract_field`'s pattern
`\*\*{field}\*\*\s*:\s*(.+?)(?=\n|$)` (IGNORECASE) at the start of
`s`; `prefLower` is the lowercased `**field**` literal.  The `\s*`
before `:` never backtracks usefully (a colon is not whitespace), so
it is a plain greedy skip. -/
def matchFieldAt (prefLower : Str) (s : Str) : Option Str :=
  if ciPref prefLower s then
    let u := (s.drop prefLower.length).dropWhile pyIsSpace
    match u with
    | ':' :: u2 => (wsDotToEol false u2).map (fun r => r.1)
    | _ => none
  else none

/-- `re.search` scan for `_extract_field`: leftmost position wins. -/
def searchField (prefLower : Str) : Str → Option Str
  | [] => none
  | c :: t =>
    match matchFieldAt prefLower (c :: t) with
    | some cap => some cap
    | none => searchField prefLower t

/-- `_extract_field(text, field_name)`: the trimmed captured value, or
`""` when the pattern does not match. -/
def _extract_field (text field : Str) : Str :=
  match searchField (lowerStr (str "**" ++ field ++ str "**")) text with
  | some cap => pyStrip cap
  | none => []

/-- `_extract_speakers(text)`: take the `Speakers` field, drop `{}`
braces, split on commas, trim, and drop empties and literal
`Speaker ...` placeholders. -/
def _extract_speakers (text : Str) : List Str :=
  let speakersText := _extract_field text (str "Speakers")
  if speakersText = [] then []
  else
    let cleaned := speakersText.filter (fun c => c != '\x7b' && c != '\x7d')
    let parts := (splitOnChar ',' cleaned).map pyStrip
    parts.filter (fun s => s ≠ [] && !(str "Speaker ").isPrefixOf s)

/- ------------------------------------------------------------------
   _parse_key_moments

   Pattern (with the file's literal mojibake codepoints):
     [â€“-]\s*\*\*\\?\*?(\d{1,2}:\d{2}(?::\d{2})?)\*+\s*(?:â†’|->|â†’)
       \s*(.+?)(?=\n[â€“-]|\n\n|$)
   flags MULTILINE|DOTALL, scanned with re.finditer.  Under MULTILINE
   the `$` alternative of the lookahead already succeeds before every
   newline, so the lazy insight group always stops at the first
   newline (or end of input).
   ------------------------------------------------------------------ -/

/-- The character class `[â€“-]`: the mojibake codepoints of an en
dash, plus an ASCII hyphen.  A real en dash (U+2013) is NOT in it. -/
def kmDashClass : List Char := ['\u00E2', '\u20AC', '\u201C', '-']

/-- The literal `â†’` of the arrow alternation (the mojibake
codepoints of a rightwards arrow U+2192, which itself is NOT
matched). -/
def kmArrow : Str := ['\u00E2', '\u2020', '\u2019']

/-- The optional `(?::\d{2})?` suffix of the timestamp (greedy; `:`
never starts the following `\*+`, so consume-if-present is exact). -/
def parseTsAfter (base : Str) (u : Str) : Str × Str :=
  match u with
  | ':' :: a :: b :: rest =>
    if a.isDigit && b.isDigit then (base ++ [':', a, b], rest) else (base, u)
  | _ => (base, u)

/-- `(\d{1,2}:\d{2}(?::\d{2})?)`: two leading digits are preferred
(greedy `\d{1,2}`); whichever branch reaches the `:` is the only one
that can proceed. -/
def parseTs (u : Str) : Option (Str × Str) :=
  let two :=
    match u with
    | a :: b :: ':' :: c :: d :: rest =>
      if a.isDigit && b.isDigit && c.isDigit && d.isDigit then
        some ([a, b, ':', c, d], rest)
      else none
    | _ => none
  let one :=
    match u with
    | a :: ':' :: c :: d :: rest =>
      if a.isDigit && c.isDigit && d.isDigit then some ([a, ':', c, d], rest)
      else none
    | _ => none
  match two with
  | some (base, rest) => some (parseTsAfter base rest)
  | none =>
    match one with
    | some (base, rest) => some (parseTsAfter base rest)
    | none => none

/-- One attempt of the key-moment pattern at the start of `s`; on
success returns the parsed moment and the rest of the input after the
match. -/
def matchKeyMomentAt (s : Str) : Option (GumloopKeyMoment × Str) :=
  match s with
  | [] => none
  | c :: rest =>
    if kmDashClass.contains c then
      let u1 := rest.dropWhile pyIsSpace
      if (str "**").isPrefixOf u1 then
        let u2 := u1.drop 2
        let u3 := match u2 with | '\\' :: t => t | _ => u2
        let u4 := match u3 with | '*' :: t => t | _ => u3
        match parseTs u4 with
        | none => none
        | some (ts, u5) =>
          let stars := (u5.takeWhile (· = '*')).length
          if stars = 0 then none
          else
            let u6 := (u5.drop stars).dropWhile pyIsSpace
            let afterArrow :=
              if kmArrow.isPrefixOf u6 then some (u6.drop kmArrow.length)
              else if (str "->").isPrefixOf u6 then some (u6.drop 2)
              else none
            match afterArrow with
            | none => none
            | some u7 =>
              match wsDotToEol true u7 with
              | none => none
              | some (cap, rest2) =>
                some (⟨ts, collapseWs (pyStrip cap)⟩, rest2)
      else none
    else none

/-- `re.finditer` scan: try every position left to right, continue
after each match (every match consumes at least one character, so
`fuel = length` suffices). -/
def kmScan : Nat → Str → List GumloopKeyMoment
  | 0, _ => []
  | _, [] => []
  | fuel + 1, c :: t =>
    match matchKeyMomentAt (c :: t) with
    | some (m, rest) => m :: kmScan fuel rest
    | none => kmScan fuel t

def _parse_key_moments (text : Str) : List GumloopKeyMoment :=
  kmScan text.length text

/- ------------------------------------------------------------------
   _parse_list_items
   ------------------------------------------------------------------ -/

/-- The class `[-*â€˘]` of `_parse_list_items` (the mojibake bullet is
three separate class members). -/
def listBulletClass : List Char := ['-', '*', '\u00E2', '\u20AC', '\u02D8']

/-- One line of `_parse_list_items`: strip, test
`^[-*â€˘]\s+` / `^\d+\.\s+`, remove the matched prefix, strip, and
keep the item if it contains the (mojibake) arrow or is nonempty. -/
def listItemLine (line : Str) : Option Str :=
  let ls := pyStrip line
  let bulletMatch :=
    match ls with
    | c :: d :: _ => listBulletClass.contains c && pyIsSpace d
    | _ => false
  let ds := ls.takeWhile Char.isDigit
  let numMatch :=
    !ds.isEmpty &&
      (match ls.drop ds.length with
       | '.' :: d :: _ => pyIsSpace d
       | _ => false)
  if bulletMatch then
    let item := pyStrip ((ls.drop 1).dropWhile pyIsSpace)
    if containsSub kmArrow item then some item
    else if !item.isEmpty then some item else none
  else if numMatch then
    let item := pyStrip ((ls.drop (ds.length + 1)).dropWhile pyIsSpace)
    if containsSub kmArrow item then some item
    else if !item.isEmpty then some item else none
  else none

def _parse_list_items (text : Str) : List Str :=
  (splitOnChar '\n' text).filterMap listItemLine

/- ------------------------------------------------------------------
   _parse_frameworks
   ------------------------------------------------------------------ -/

/-- Table pass of `_parse_frameworks`: a `| Framework`- or
`|-`-prefixed line turns table mode on; in table mode a `|` row with
at least three pipes is split, the outer empty cells dropped, and
columns 0/1 (plus column 2 joined with `" - "`) become a framework. -/
def fwTableStep (st : Bool × List GumloopFramework) (line : Str) :
    Bool × List GumloopFramework :=
  let ls := pyStrip line
  if (str "| Framework").isPrefixOf ls || (str "|-").isPrefixOf ls then
    (true, st.2)
  else if st.1 && (match ls with | '|' :: _ => true | _ => false)
      && 3 ≤ countChar '|' ls then
    let parts := (((splitOnChar '|' ls).drop 1).dropLast).map pyStrip
    if 2 ≤ parts.length then
      let name := pyStrip (parts.getD 0 [])
      let desc0 := pyStrip (parts.getD 1 [])
      let desc :=
        if 3 ≤ parts.length then desc0 ++ str " - " ++ pyStrip (parts.getD 2 [])
        else desc0
      if !name.isEmpty && !desc.isEmpty then (st.1, st.2 ++ [⟨name, desc⟩])
      else (st.1, st.2)
    else (st.1, st.2)
  else (st.1, st.2)

/-- The lazy `(.+?):` of the numbered-framework pattern: the group
grows until the first colon that is preceded by at least one group
character and followed by a nonempty tail (the tail `\s*(.+)$` on a
newline-free line succeeds exactly when nonempty). -/
def lcsGo (acc : Str) : Str → Option (Str × Str)
  | [] => none
  | c :: t =>
    if c = ':' && !acc.isEmpty && !t.isEmpty then some (acc.reverse, t)
    else lcsGo (c :: acc) t

/-- The `\s*(.+)$` tail after the colon: greedy whitespace first;
when everything after the colon is whitespace the group keeps the
last whitespace character. -/
def tailAfterColon (t : Str) : Str :=
  let r := t.dropWhile pyIsSpace
  if !r.isEmpty then r
  else match t.getLast? with | some x => [x] | none => []

/-- Backtracking over the `\s*` before the lazy group of
`^\d+\.\s*(.+?):\s*(.+)$` (longest skip first; a shorter skip lets
the group start with whitespace). -/
def fwNumGo (u : Str) : Nat → Option (Str × Str)
  | 0 => lcsGo [] u
  | k + 1 =>
    match lcsGo [] (u.drop (k + 1)) with
    | some r => some r
    | none => fwNumGo u k

/-- One line of the numbered-list pass (`re.match`, no flags). -/
def fwNumberedLine (line : Str) : Option GumloopFramework :=
  let ls := pyStrip line
  let ds := ls.takeWhile Char.isDigit
  if ds.isEmpty then none
  else
    match ls.drop ds.length with
    | '.' :: u =>
      match fwNumGo u (u.takeWhile pyIsSpace).length with
      | some (g1, t) => some ⟨pyStrip g1, pyStrip (tailAfterColon t)⟩
      | none => none
    | _ => none

/-- Python truthiness of `current_name` (both `None` and `""` are
falsy). -/
def truthyName : Option Str → Bool
  | some n => !n.isEmpty
  | none => false

/-- Bold-name fallback pass of `_parse_frameworks` (fold state:
current name, current description lines, output). -/
def fwBoldStep (st : Option Str × List Str × List GumloopFramework)
    (line : Str) : Option Str × List Str × List GumloopFramework :=
  let (curName, curDesc, acc) := st
  let ls := pyStrip line
  if (str "**").isPrefixOf ls && (str "**").isSuffixOf ls then
    let acc' :=
      if truthyName curName && !curDesc.isEmpty then
        acc ++ [⟨curName.getD [], pyStrip (joinSep (str " ") curDesc)⟩]
      else acc
    (some (pyStrip (stripChar '*' ls)), [], acc')
  else if truthyName curName && !ls.isEmpty then
    (curName, curDesc ++ [ls], acc)
  else (curName, curDesc, acc)

def _parse_frameworks (text : Str) : List GumloopFramework :=
  let lines := splitOnChar '\n' text
  let table := (lines.foldl fwTableStep (false, [])).2
  if !table.isEmpty then table
  else
    let numbered := lines.filterMap fwNumberedLine
    if !numbered.isEmpty then numbered
    else
      let (n, d, acc) := lines.foldl fwBoldStep (none, [], [])
      if truthyName n && !d.isEmpty then
        acc ++ [⟨n.getD [], pyStrip (joinSep (str " ") d)⟩]
      else acc

/- ------------------------------------------------------------------
   _parse_playbooks
   ------------------------------------------------------------------ -/

/-- The optional bullet class `[â€˘\-*]` of the playbook patterns. -/
def pbBulletClass : List Char := ['\u00E2', '\u20AC', '\u02D8', '-', '*']

/-- The arrow class `[â†’âž”]`: the union of the codepoints of the
two mojibake arrow literals. -/
def pbArrowClass : List Char := ['\u00E2', '\u2020', '\u2019', '\u017E', '\u201D']

/-- `\s+THEN\s+(.+)\.?$` (IGNORECASE) at the start of `v`.  The
greedy `(.+)` swallows a trailing period, so `\.?` matches nothing;
when everything after `THEN` is whitespace the group keeps the last
whitespace character (and `\s+` must still consume at least one). -/
def pbIfThenTail (v : Str) : Option Str :=
  let w := v.takeWhile pyIsSpace
  if w.isEmpty then none
  else
    let u4 := v.drop w.length
    if ciPref (str "then") u4 then
      let after := u4.drop 4
      let w3 := after.takeWhile pyIsSpace
      if w3.isEmpty then none
      else
        let rest := after.drop w3.length
        if !rest.isEmpty then some rest
        else if 2 ≤ w3.length then
          match after.getLast? with | some x => some [x] | none => none
        else none
    else none

/-- `(.+?),?\s+THEN\s+(.+)\.?$` : the lazy group grows one character
at a time; at each size the optional comma is preferred consumed. -/
def pbIfThenCore (acc : Str) : Str → Option (Str × Str)
  | [] => none
  | c :: t =>
    let acc' := c :: acc
    let withComma :=
      match t with
      | ',' :: t2 => (pbIfThenTail t2).map (fun cap2 => (acc'.reverse, cap2))
      | _ => none
    match withComma with
    | some r => some r
    | none =>
      match pbIfThenTail t with
      | some cap2 => some (acc'.reverse, cap2)
      | none => pbIfThenCore acc' t

/-- Backtracking over the `\s+` between `IF` and the lazy trigger
group (longest skip first, at least one). -/
def pbIfGo (u2 : Str) : Nat → Option (Str × Str)
  | 0 => none
  | j + 1 =>
    match pbIfThenCore [] (u2.drop (j + 1)) with
    | some r => some r
    | none => pbIfGo u2 j

/-- `re.match(r'^[â€˘\-*]?\s*IF\s+(.+?),?\s+THEN\s+(.+)\.?$', line,
re.IGNORECASE)`.  The optional bullet is deterministic (no bullet
character can begin `IF`). -/
def pbMatchIfThen (ls : Str) : Option (Str × Str) :=
  let u0 :=
    match ls with
    | c :: t => if pbBulletClass.contains c then t else ls
    | [] => ls
  let u1 := u0.dropWhile pyIsSpace
  if ciPref (str "if") u1 then
    let u2 := u1.drop 2
    let w := u2.takeWhile pyIsSpace
    if w.isEmpty then none else pbIfGo u2 w.length
  else none

/-- `(.+?)\s*[â†’âž”]\s*(.+)$` : the lazy group grows until an arrow
character follows its (deterministically skipped) trailing
whitespace with a nonempty remainder. -/
def pbArrowCore (acc : Str) : Str → Option (Str × Str)
  | [] => none
  | c :: t =>
    let acc' := c :: acc
    let v := t.dropWhile pyIsSpace
    match v with
    | a :: t2 =>
      if pbArrowClass.contains a then
        let w := t2.takeWhile pyIsSpace
        let rest := t2.drop w.length
        if !rest.isEmpty then some (acc'.reverse, rest)
        else
          match t2.getLast? with
          | some x => some (acc'.reverse, [x])
          | none => pbArrowCore acc' t
      else pbArrowCore acc' t
    | [] => pbArrowCore acc' t

/-- Backtracking over the leading `\s*` of the arrow pattern. -/
def pbArrowGo (u : Str) : Nat → Option (Str × Str)
  | 0 => pbArrowCore [] u
  | k + 1 =>
    match pbArrowCore [] (u.drop (k + 1)) with
    | some r => some r
    | none => pbArrowGo u k

/-- `re.match(r'^[â€˘\-*]?\s*(.+?)\s*[â†’âž”]\s*(.+)$', line)`.  The
optional bullet genuinely backtracks: the bullet and arrow classes
share U+00E2. -/
def pbMatchArrow (ls : Str) : Option (Str × Str) :=
  let tryAt (u : Str) : Option (Str × Str) :=
    pbArrowGo u (u.takeWhile pyIsSpace).length
  match ls with
  | c :: t =>
    if pbBulletClass.contains c then
      match tryAt t with
      | some r => some r
      | none => tryAt ls
    else tryAt ls
  | [] => none

/-- `re.sub(r'^(W1|W2)\s+', '', s, flags=re.IGNORECASE)`: drop a
leading alternative word together with the following whitespace run
(the word alternatives of the source never overlap). -/
def stripCiWordPrefix (words : List Str) (s : Str) : Str :=
  match words with
  | [] => s
  | w :: ws =>
    if ciPref w s && (match s.drop w.length with
                        | d :: _ => pyIsSpace d
                        | [] => false) then
      (s.drop w.length).dropWhile pyIsSpace
    else stripCiWordPrefix ws s

/-- Fallback pass of `_parse_playbooks`: IF/THEN first, else the
arrow heuristic with `When`/`If` and `Do`/`Then` prefixes stripped. -/
def pbFallbackLine (line : Str) : Option GumloopPlaybook :=
  let ls := pyStrip line
  match pbMatchIfThen ls with
  | some (g1, g2) => some ⟨pyStrip g1, pyStrip g2⟩
  | none =>
    match pbMatchArrow ls with
    | some (g1, g2) =>
      let trigger := stripCiWordPrefix [str "when", str "if"] (pyStrip g1)
      let action := stripCiWordPrefix [str "do", str "then"] (pyStrip g2)
      some ⟨trigger, action⟩
    | none => none

/-- Table pass of `_parse_playbooks`: a line containing `trigger`
(case-insensitively) and a pipe turns table mode on; `|-` rows are
skipped (they do NOT turn table mode on here); a `|` row with at
least three pipes maps column 0 to the trigger and the remaining
columns, joined with spaces, to the action. -/
def pbTableStep (st : Bool × List GumloopPlaybook) (line : Str) :
    Bool × List GumloopPlaybook :=
  let ls := pyStrip line
  if containsSub (str "trigger") (lowerStr ls) && ls.contains '|' then
    (true, st.2)
  else if (str "|-").isPrefixOf ls then (st.1, st.2)
  else if st.1 && (match ls with | '|' :: _ => true | _ => false)
      && 3 ≤ countChar '|' ls then
    let parts := (((splitOnChar '|' ls).drop 1).dropLast).map pyStrip
    if 2 ≤ parts.length then
      let trigger := pyStrip (parts.getD 0 [])
      let action := pyStrip (joinSep (str " ") (parts.drop 1))
      if !trigger.isEmpty && !action.isEmpty then (st.1, st.2 ++ [⟨trigger, action⟩])
      else (st.1, st.2)
    else (st.1, st.2)
  else (st.1, st.2)

def _parse_playbooks (text : Str) : List GumloopPlaybook :=
  let lines := splitOnChar '\n' text
  let table := (lines.foldl pbTableStep (false, [])).2
  if !table.isEmpty then table else lines.filterMap pbFallbackLine

/- ------------------------------------------------------------------
   _parse_insight_enrichment
   ------------------------------------------------------------------ -/

/-- The literal mojibake bullet `â€˘` (three codepoints) used by the
`startswith` tuple. -/
def enrichBulletSeq : Str := ['\u00E2', '\u20AC', '\u02D8']

/-- The class `[-*â€˘]` of the bullet-stripping sub. -/
def enrichBulletClass : List Char := ['-', '*', '\u00E2', '\u20AC', '\u02D8']

/-- The sentiment mapping of `_parse_insight_enrichment` (translated
from the source's elif chain on `value.lower()`). -/
def classifySentiment (value : Str) : Str :=
  let lv := lowerStr value
  if containsSub (str "positive") lv || containsSub (str "admiring") lv then
    str "positive"
  else if containsSub (str "negative") lv || containsSub (str "critical") lv then
    str "negative"
  else str "neutral"

/-- `re.split(r'[;,]', value)` + strip + drop empties. -/
def enrichItems (value : Str) : List Str :=
  ((splitOnAny [';', ','] value).map pyStrip).filter (fun s => !s.isEmpty)

/-- `content.split(':', 1)` when a colon is present. -/
def enrichSplitLabel (content : Str) : Option (Str × Str) :=
  let pre := content.takeWhile (fun c => c != ':')
  if pre.length = content.length then none
  else some (pre, content.drop (pre.length + 1))

/-- `re.sub(r'^[-*â€˘]\s+', '', ls)` (the sub requires whitespace
after the bullet; otherwise the line passes through unchanged). -/
def enrichSubBullet (ls : Str) : Str :=
  match ls with
  | c :: d :: t =>
    if enrichBulletClass.contains c && pyIsSpace d then
      (d :: t).dropWhile pyIsSpace
    else ls
  | _ => ls

/-- One line of `_parse_insight_enrichment`'s loop. -/
def enrichStep (st : GumloopInsightEnrichment) (line : Str) :
    GumloopInsightEnrichment :=
  let ls := pyStrip line
  if (str "-").isPrefixOf ls || (str "*").isPrefixOf ls
      || enrichBulletSeq.isPrefixOf ls then
    let content := pyStrip (enrichSubBullet ls)
    match enrichSplitLabel content with
    | some (label0, value0) =>
      let label := lowerStr (pyStrip label0)
      let value := pyStrip value0
      if containsSub (str "stats") label || containsSub (str "tools") label
          || containsSub (str "links") label then
        { st with stats_tools_links := st.stats_tools_links ++ enrichItems value }
      else if containsSub (str "sentiment") label then
        { st with sentiment := classifySentiment value }
      else if containsSub (str "risks") label || containsSub (str "blockers") label
          || containsSub (str "questions") label then
        { st with
            risks_blockers_questions :=
              st.risks_blockers_questions ++ enrichItems value }
      else st
    | none => st
  else st

def _parse_insight_enrichment (text : Str) :
    Option GumloopInsightEnrichment :=
  if text.isEmpty then none
  else some ((splitOnChar '\n' text).foldl enrichStep ⟨[], str "neutral", []⟩)

/- ------------------------------------------------------------------
   Learning-pack sub-parsers: _parse_flashcards, _parse_glossary,
   _parse_quiz, _parse_novel_ideas.

   Their MULTILINE patterns are scanned with a shared re.finditer
   loop over `^`-anchored positions.
   ------------------------------------------------------------------ -/

/-- First position whose suffix satisfies `p` (re.search start). -/
def searchPos (p : Str → Bool) : Str → Option Nat
  | [] => if p [] then some 0 else none
  | c :: t => if p (c :: t) then some 0 else (searchPos p t).map (· + 1)

/-- `\n[â€“-]\s*\*\*(?:ALT1|ALT2)` — the next-section boundary pattern
of the flashcard/glossary/quiz parsers. -/
def nsMatch (alts : List Str) (u : Str) : Bool :=
  match u with
  | '\n' :: d :: v =>
    kmDashClass.contains d &&
      (let w := v.dropWhile pyIsSpace
       (str "**").isPrefixOf w && alts.any (fun a => a.isPrefixOf (w.drop 2)))
  | _ => false

/-- Truncate the text at the next-section boundary, if any
(`match.start()` is the position of the `\n`). -/
def truncateAtNS (alts : List Str) (ft : Str) : Str :=
  match searchPos (nsMatch alts) ft with
  | some i => ft.take i
  | none => ft

/-- `re.finditer` for a `^`-anchored MULTILINE pattern: attempt the
match at position 0 and after every newline; after a hit continue at
the match end (every match of the patterns used here consumes at
least one character, so `fuel = length` suffices). -/
def mlScan {α : Type} (matchAt : Str → Option (α × Str)) :
    Nat → Bool → Str → List α
  | 0, _, _ => []
  | _, _, [] => []
  | fuel + 1, atStart, c :: t =>
    if atStart then
      match matchAt (c :: t) with
      | some (a, rest) =>
        let s := c :: t
        let consumed := s.take (s.length - rest.length)
        a :: mlScan matchAt fuel (consumed.getLast? == some '\n') rest
      | none => mlScan matchAt fuel (c == '\n') t
    else mlScan matchAt fuel (c == '\n') t

def mlFindIter {α : Type} (matchAt : Str → Option (α × Str)) (s : Str) :
    List α :=
  mlScan matchAt s.length true s

/-- The lazy `(.+?)\s*A:\s*(.+?)(?=\n|$)` tail of the numbered
`Q:`/`A:` flashcard pattern: the question group (which cannot contain
a newline) grows until `A:` follows its deterministically skipped
trailing whitespace and the answer tail matches. -/
def qaCore (acc : Str) : Str → Option (QAPair × Str)
  | [] => none
  | c :: t =>
    if c = '\n' then none
    else
      let acc' := c :: acc
      let v := t.dropWhile pyIsSpace
      if (str "A:").isPrefixOf v then
        match wsDotToEol false (v.drop 2) with
        | some (cap2, rest) => some (⟨pyStrip acc'.reverse, pyStrip cap2⟩, rest)
        | none => qaCore acc' t
      else qaCore acc' t

/-- Backtracking over the `\s*` between `Q:` and the question group. -/
def qaGo (u : Str) : Nat → Option (QAPair × Str)
  | 0 => qaCore [] u
  | k + 1 =>
    match qaCore [] (u.drop (k + 1)) with
    | some r => some r
    | none => qaGo u k

/-- Flashcard pattern 1: `^\s*\d+\.\s*Q:\s*(.+?)\s*A:\s*(.+?)(?=\n|$)`
(MULTILINE). -/
def fcMatch1 (s : Str) : Option (QAPair × Str) :=
  let u0 := s.dropWhile pyIsSpace
  let ds := u0.takeWhile Char.isDigit
  if ds.isEmpty then none
  else
    match u0.drop ds.length with
    | '.' :: u1 =>
      let u2 := u1.dropWhile pyIsSpace
      if (str "Q:").isPrefixOf u2 then
        let u3 := u2.drop 2
        qaGo u3 (u3.takeWhile pyIsSpace).length
      else none
    | _ => none

/-- The `(.+?)\s*[/|]\s*A:\s*(.+?)(?=\n|$)` tail shared by flashcard
pattern 1b and quiz pattern 1. -/
def qaSlashCore (acc : Str) : Str → Option (QAPair × Str)
  | [] => none
  | c :: t =>
    if c = '\n' then none
    else
      let acc' := c :: acc
      let v := t.dropWhile pyIsSpace
      match v with
      | sep :: v2 =>
        if sep = '/' || sep = '|' then
          let v3 := v2.dropWhile pyIsSpace
          if (str "A:").isPrefixOf v3 then
            match wsDotToEol false (v3.drop 2) with
            | some (cap2, rest) => some (⟨pyStrip acc'.reverse, pyStrip cap2⟩, rest)
            | none => qaSlashCore acc' t
          else qaSlashCore acc' t
        else qaSlashCore acc' t
      | [] => qaSlashCore acc' t

def qaSlashGo (u : Str) : Nat → Option (QAPair × Str)
  | 0 => qaSlashCore [] u
  | k + 1 =>
    match qaSlashCore [] (u.drop (k + 1)) with
    | some r => some r
    | none => qaSlashGo u k

/-- The `Q:\s*(.+?)\s*[/|]\s*A:\s*(.+?)(?=\n|$)` suffix applied after
a recognized bullet/number prefix. -/
def qaSlashTail (u2 : Str) : Option (QAPair × Str) :=
  if (str "Q:").isPrefixOf u2 then
    let u3 := u2.drop 2
    qaSlashGo u3 (u3.takeWhile pyIsSpace).length
  else none

/-- Flashcard pattern 1b: `^\s*-\s*Q:\s*(.+?)\s*[/|]\s*A:\s*(.+?)(?=\n|$)`
(MULTILINE). -/
def fcMatch1b (s : Str) : Option (QAPair × Str) :=
  match s.dropWhile pyIsSpace with
  | '-' :: u1 => qaSlashTail (u1.dropWhile pyIsSpace)
  | _ => none

/-- Numbered-item pattern `^\s*\d+\.\s*(.+?)(?=\n\s*\d+\.|$)`
(MULTILINE|DOTALL): under MULTILINE the `$` alternative stops the
lazy group at the first newline, so the item is the rest of the
line. -/
def numItemMatch (s : Str) : Option (Str × Str) :=
  let u0 := s.dropWhile pyIsSpace
  let ds := u0.takeWhile Char.isDigit
  if ds.isEmpty then none
  else
    match u0.drop ds.length with
    | '.' :: u1 => (wsDotToEol true u1).map (fun r => (pyStrip r.1, r.2))
    | _ => none

/-- Bullet-item pattern `^\s*-\s*(.+?)(?=\n\s*-|$)` (MULTILINE|DOTALL),
same remark. -/
def dashItemMatch (s : Str) : Option (Str × Str) :=
  match s.dropWhile pyIsSpace with
  | '-' :: u1 => (wsDotToEol true u1).map (fun r => (pyStrip r.1, r.2))
  | _ => none

/-- `_parse_flashcards(text)`. -/
def _parse_flashcards (text : Str) : List QAPair :=
  if containsSub (str "feynman flashcards") (lowerStr text) then
    let start := (findSub (str "feynman flashcards") (lowerStr text)).getD 0
    let ft := truncateAtNS [str "Glossary", str "Quick Quiz"] (text.drop start)
    let p1 := mlFindIter fcMatch1 ft
    if !p1.isEmpty then p1
    else
      let p1b := mlFindIter fcMatch1b ft
      if !p1b.isEmpty then p1b
      else
        let p2 :=
          (mlFindIter numItemMatch ft).filterMap (fun item =>
            if !item.isEmpty && 10 < item.length then
              some (⟨item, str "See video content for detailed explanation"⟩ : QAPair)
            else none)
        if !p2.isEmpty then p2
        else
          (mlFindIter dashItemMatch ft).filterMap (fun item =>
            if !item.isEmpty && 10 < item.length
                && !(str "feynman").isPrefixOf (lowerStr item) then
              some (⟨item, str "See video content for detailed explanation"⟩ : QAPair)
            else none)
  else []

/-- The `([^:\n]+?):\s*(.+?)(?=\n|$)` tail of glossary pattern 1: the
term group runs to the first colon (it cannot contain one); if the
definition tail fails there is nothing to backtrack to. -/
def glCore (acc : Str) : Str → Option ((Str × Str) × Str)
  | [] => none
  | c :: t =>
    if c = ':' then
      if acc.isEmpty then none
      else
        match wsDotToEol false t with
        | some (cap2, rest) => some ((acc.reverse, cap2), rest)
        | none => none
    else if c = '\n' then none
    else glCore (c :: acc) t

def glGo (u : Str) : Nat → Option ((Str × Str) × Str)
  | 0 => glCore [] u
  | k + 1 =>
    match glCore [] (u.drop (k + 1)) with
    | some r => some r
    | none => glGo u k

/-- Glossary pattern 1: `^\s*-\s*([^:\n]+?):\s*(.+?)(?=\n|$)`
(MULTILINE). -/
def glMatch1 (s : Str) : Option ((Str × Str) × Str) :=
  match s.dropWhile pyIsSpace with
  | '-' :: u1 => glGo u1 (u1.takeWhile pyIsSpace).length
  | _ => none

/-- Stop condition of glossary pattern 2's lazy group:
`(?=\n[â€“-]|\Z)`. -/
def glStop : Str → Bool
  | [] => true
  | '\n' :: d :: _ => kmDashClass.contains d
  | _ => false

/-- The lazy `(.+?)` (DOTALL) of glossary pattern 2: shortest
nonempty prefix whose remainder satisfies the stop condition. -/
def glCap (acc : Str) : Str → Option Str
  | [] => if acc.isEmpty then none else some acc.reverse
  | c :: t =>
    let acc' := c :: acc
    if glStop t then some acc'.reverse else glCap acc' t

/-- `[:\s]*` backtracking (longest skip first) before the capture. -/
def glColonWsGo (w : Str) : Nat → Option Str
  | 0 => glCap [] w
  | j + 1 =>
    match glCap [] (w.drop (j + 1)) with
    | some r => some r
    | none => glColonWsGo w j

def glAfterParen (v : Str) : Option Str :=
  let run := v.takeWhile (fun c => c = ':' || pyIsSpace c)
  glColonWsGo v run.length

/-- The `(?:\(\d+\))?[:\s]*(.+?)(?=\n[â€“-]|\Z)` part after the lazy
`.*?`: the optional parenthesized number is preferred consumed. -/
def glAfterDots (v : Str) : Option Str :=
  let withParen :=
    match v with
    | '(' :: t =>
      let ds := t.takeWhile Char.isDigit
      if !ds.isEmpty then
        match t.drop ds.length with
        | ')' :: t2 => glAfterParen t2
        | _ => none
      else none
    | _ => none
  match withParen with
  | some r => some r
  | none => glAfterParen v

/-- The lazy `.*?` (DOTALL) after the `glossary` literal of pattern 2
(shortest first); fuel is the suffix length. -/
def glDotsGo (v : Str) : Nat → Option Str
  | 0 => glAfterDots v
  | l + 1 =>
    match glAfterDots v with
    | some r => some r
    | none =>
      match v with
      | [] => none
      | _ :: t => glDotsGo t l

/-- One attempt of glossary pattern 2
`glossary.*?(?:\(\d+\))?[:\s]*(.+?)(?=\n[â€“-]|\Z)`
(IGNORECASE|DOTALL) at the start of `u`. -/
def glMatch2At (u : Str) : Option Str :=
  if ciPref (str "glossary") u then
    let v := u.drop 8
    glDotsGo v v.length
  else none

/-- `re.search` scan for glossary pattern 2. -/
def glSearch2 : Str → Option Str
  | [] => glMatch2At []
  | c :: t =>
    match glMatch2At (c :: t) with
    | some r => some r
    | none => glSearch2 t

/-- `re.sub(r'^e\.g\.?,?\s*', '', s, flags=re.IGNORECASE)`. -/
def glSubEg (s : Str) : Str :=
  if ciPref (str "e.g") s then
    let r := s.drop 3
    let r1 := match r with | '.' :: t => t | _ => r
    let r2 := match r1 with | ',' :: t => t | _ => r1
    r2.dropWhile pyIsSpace
  else s

/-- `re.sub(r'^\*\*[^:]*:\s*', '', s)` (the greedy `[^:]*` runs to
the first colon). -/
def glSubBoldLabel (s : Str) : Str :=
  if (str "**").isPrefixOf s then
    let r := s.drop 2
    let pre := r.takeWhile (fun c => c != ':')
    match r.drop pre.length with
    | ':' :: t => t.dropWhile pyIsSpace
    | _ => s
  else s

/-- `re.sub(r'^\(\d+\):\s*', '', s)`. -/
def glSubParen (s : Str) : Str :=
  match s with
  | '(' :: t =>
    let ds := t.takeWhile Char.isDigit
    if !ds.isEmpty then
      match t.drop ds.length with
      | ')' :: ':' :: t2 => t2.dropWhile pyIsSpace
      | _ => s
    else s
  | _ => s

/-- Per-term cleanup of glossary pattern 2: strip, drop a leading
bullet (`^[â€“-]\s*`), then a leading and a trailing `**`. -/
def glCleanTerm (t0 : Str) : Str :=
  let t := pyStrip t0
  let t := match t with
    | c :: r => if kmDashClass.contains c then r.dropWhile pyIsSpace else t
    | [] => t
  let t := if (str "**").isPrefixOf t then t.drop 2 else t
  if (str "**").isSuffixOf t then t.take (t.length - 2) else t

/-- The discard list of glossary pattern 2. -/
def glDiscard : List Str :=
  [str "etc", str "e.g.", str "eg", [], str "and more"]

/-- `_parse_glossary(text)`. -/
def _parse_glossary (text : Str) : List TermDef :=
  if containsSub (str "glossary") (lowerStr text) then
    let start := (findSub (str "glossary") (lowerStr text)).getD 0
    let gt := truncateAtNS [str "Quick Quiz", str "Novel-Idea"] (text.drop start)
    let p1 :=
      (mlFindIter glMatch1 gt).filterMap (fun td =>
        let term := pyStrip td.1
        let defn := pyStrip td.2
        if !term.isEmpty && !defn.isEmpty
            && !(str "glossary").isPrefixOf (lowerStr term) then
          some (⟨term, defn⟩ : TermDef)
        else none)
    if !p1.isEmpty then p1
    else
      match glSearch2 gt with
      | none => []
      | some g1 =>
        let termsText := glSubParen (glSubBoldLabel (glSubEg (pyStrip g1)))
        (splitOnAny [',', ';'] termsText).filterMap (fun raw =>
          let term := glCleanTerm raw
          if !term.isEmpty && 1 < term.length
              && !(glDiscard.contains (lowerStr term)) then
            some (⟨term, str "Key term mentioned in the video content"⟩ : TermDef)
          else none)
  else []

/-- Quiz pattern 1:
`(?:^\s*\d+\.\s*|^\s*-\s*)Q:\s*(.+?)\s*[/|]\s*A:\s*(.+?)(?=\n|$)`
(MULTILINE); the numbered alternative is tried first. -/
def qzMatch1 (s : Str) : Option (QAPair × Str) :=
  let u0 := s.dropWhile pyIsSpace
  let viaNum :=
    let ds := u0.takeWhile Char.isDigit
    if ds.isEmpty then none
    else
      match u0.drop ds.length with
      | '.' :: u1 => qaSlashTail (u1.dropWhile pyIsSpace)
      | _ => none
  match viaNum with
  | some r => some r
  | none =>
    match u0 with
    | '-' :: u1 => qaSlashTail (u1.dropWhile pyIsSpace)
    | _ => none

/-- `_parse_quiz(text)`. -/
def _parse_quiz (text : Str) : List QAPair :=
  if containsSub (str "quick quiz") (lowerStr text) then
    let start := (findSub (str "quick quiz") (lowerStr text)).getD 0
    let qt := truncateAtNS [str "Novel-Idea"] (text.drop start)
    let p1 := mlFindIter qzMatch1 qt
    if !p1.isEmpty then p1
    else
      let p2 :=
        (mlFindIter dashItemMatch qt).filterMap (fun item =>
          let question :=
            if (str "Q:").isPrefixOf item then (item.drop 2).dropWhile pyIsSpace
            else item
          if !question.isEmpty && 10 < question.length
              && !(str "quick quiz").isPrefixOf (lowerStr question) then
            some (⟨question, str "Review video content for the answer"⟩ : QAPair)
          else none)
      if !p2.isEmpty then p2
      else
        (mlFindIter numItemMatch qt).filterMap (fun question =>
          if !question.isEmpty && 10 < question.length then
            some (⟨question, str "Review video content for the answer"⟩ : QAPair)
          else none)
  else []

/-- The novel-idea separator class `[â€“\-:]`. -/
def nvSepClass : List Char := ['\u00E2', '\u20AC', '\u201C', '-', ':']

/-- The lazy `(.+?)\s*[â€“\-:]\s*(\d+)(?:/5)?` tail of the novel-idea
pattern. -/
def nvCore (acc : Str) : Str → Option (Str × Nat)
  | [] => none
  | c :: t =>
    let acc' := c :: acc
    let v := t.dropWhile pyIsSpace
    match v with
    | d :: t2 =>
      if nvSepClass.contains d then
        let t3 := t2.dropWhile pyIsSpace
        let ds := t3.takeWhile Char.isDigit
        if !ds.isEmpty then some (acc'.reverse, digitsToNat ds)
        else nvCore acc' t
      else nvCore acc' t
    | [] => nvCore acc' t

def nvGo (u : Str) : Nat → Option (Str × Nat)
  | 0 => nvCore [] u
  | k + 1 =>
    match nvCore [] (u.drop (k + 1)) with
    | some r => some r
    | none => nvGo u k

/-- `re.match(r'^[â€˘\-*]\s*(.+?)\s*[â€“\-:]\s*(\d+)(?:/5)?', line.strip())`. -/
def nvScoreMatch (ls : Str) : Option GumloopNovelIdea :=
  match ls with
  | c :: u =>
    if pbBulletClass.contains c then
      match nvGo u (u.takeWhile pyIsSpace).length with
      | some (g1, score) => some ⟨pyStrip g1, score⟩
      | none => none
    else none
  | [] => none

/-- `_parse_novel_ideas(text)`. -/
def _parse_novel_ideas (text : Str) : List GumloopNovelIdea :=
  if containsSub (str "novel-idea meter") (lowerStr text)
      || containsSub (str "novel idea meter") (lowerStr text) then
    ((splitOnChar '\n' text).foldl
      (fun st line =>
        if containsSub (str "novel") (lowerStr line)
            && containsSub (str "idea") (lowerStr line) then (true, st.2)
        else if st.1 then
          match nvScoreMatch (pyStrip line) with
          | some idea => (st.1, st.2 ++ [idea])
          | none => (st.1, st.2)
        else st)
      (false, [])).2
  else []

/- ------------------------------------------------------------------
   _parse_accelerated_learning_pack_from_sections,
   parse_gumloop_summary, extract_key_points_from_gumloop
   ------------------------------------------------------------------ -/

/-- The dict key of the TL;DR section (with the file's literal
mojibake codepoints). -/
def tldrKey : Str := str "tl;dr (\u00E2\u2030\u00A4100 words)"

/-- `_parse_accelerated_learning_pack_from_sections(sections)`.  The
Python body is wrapped in try/except, but none of its (total)
sub-parsers can raise, so the pack is always produced. -/
def _parse_accelerated_learning_pack_from_sections
    (sections : List (Str × Str)) : Option GumloopAcceleratedLearningPack :=
  some
    { tldr100 := pyStrip (sectGet sections tldrKey),
      feynman_flashcards := _parse_flashcards (sectGet sections (str "feynman flashcards")),
      glossary := _parse_glossary (sectGet sections (str "glossary")),
      quick_quiz := _parse_quiz (sectGet sections (str "quick quiz")),
      novel_idea_meter := _parse_novel_ideas (sectGet sections (str "novel-idea meter")) }

/-- The try-body of `parse_gumloop_summary`: split the content into
sections and assemble the record (an `Except.error` would model a
raised exception; every step of the body is total, so it always
returns `ok`). -/
def parse_gumloop_summaryE (content : Str) : Except Str GumloopSummary :=
  let sections := _extract_sections content
  let videoContext := sectGet sections (str "video context")
  Except.ok
    { title := _extract_field videoContext (str "Title"),
      speakers := _extract_speakers videoContext,
      duration := _extract_field videoContext (str "Duration"),
      channel := _extract_field videoContext (str "Channel"),
      synopsis := _extract_field videoContext (str "Synopsis"),
      video_url := pyOr (_extract_field videoContext (str "Video URL")) [],
      language := pyOr (_extract_field videoContext (str "Language")) (str "en"),
      generated_on := pyOr (_extract_field videoContext (str "Generated On")) [],
      version := pyOr (_extract_field videoContext (str "Version")) (str "v1.0"),
      tldr := pyStrip (sectGet sections tldrKey),
      key_moments := _parse_key_moments (sectGet sections (str "key moments")),
      frameworks := _parse_frameworks (sectGet sections (str "strategic frameworks")),
      debunked_assumptions := _parse_list_items (sectGet sections (str "debunked assumptions")),
      in_practice := _parse_list_items (sectGet sections (str "in practice")),
      playbooks := _parse_playbooks (sectGet sections (str "playbooks & heuristics")),
      insight_enrichment := _parse_insight_enrichment (sectGet sections (str "insight enrichment")),
      accelerated_learning_pack := _parse_accelerated_learning_pack_from_sections sections,
      full_content := content }

/-- `parse_gumloop_summary(content)`: the except-boundary converts a
raised exception into `None`, a normal return into the record. -/
def parse_gumloop_summary (content : Str) : Option GumloopSummary :=
  match parse_gumloop_summaryE content with
  | Except.ok s => some s
  | Except.error _ => none

/-- `extract_key_points_from_gumloop(gumloop_summary)`. -/
def extract_key_points_from_gumloop (s : GumloopSummary) : List Str :=
  let keyPoints := (s.key_moments.take 5).map (fun m => m.insight)
  let keyPoints :=
    if keyPoints.length < 3 then
      keyPoints ++ (s.frameworks.take 2).map
        (fun f => f.name ++ str ": " ++ f.description.take 100 ++ str "...")
    else keyPoints
  keyPoints.take 5

end Gumloop

namespace Gumloop

/- ==================================================================
   Statement-side definitions for the claims
   ================================================================== -/

/- ==================================================================
   Claim statements and proofs
   ================================================================== -/

/-- The body handed by `parse_gumloop_summary` to a per-section
parser: the section's entry of `_extract_sections`, or `""` when the
section is absent. -/
def sectionBody (content key : Str) : Str :=
  sectGet (_extract_sections content) key


/-- A 59-character input containing five of the canonical markers. -/
def c3ShortDoc : Str :=
  str "## Video Context**Title****Speakers**:**Synopsis**:## TL;DR"


/-- The same marker text padded past the 100-character gate. -/
def c3LongDoc : Str :=
  str "## Video Context**Title****Speakers**:**Synopsis**:## TL;DRxxxxxxxxxxxxxxxxxxxxxxxxxxxxxxxxxxxxxxxxxxxxxxxxxx"


/-- The Strategic Frameworks scenario: a markdown pipe-table (header
row, separator row, one data row) under the section header. -/
def c5Doc : Str :=
  str "## Strategic Frameworks\n| Name | Desc |\n|---|---|\n| Loop | Explains loop |"


/-- The Key Moments scenario exactly as the claim states it, with a
real en dash (U+2013) and a real rightwards arrow (U+2192). -/
def c7RealDoc : Str :=
  str "## Key Moments\n– **03:21** → Something happens"


/-- The same line with the ASCII dash and arrow that the source's
(mojibake-corrupted) pattern does accept. -/
def c7AsciiDoc : Str :=
  str "## Key Moments\n- **03:21** -> Something happens"


/-- A document that HAS all four learning-pack sections, whose bodies
do not repeat the title phrases. -/
def c6Doc : Str :=
  str "### Feynman Flashcards\nhello\n### Glossary\nwords here\n### Quick Quiz\nstuff\n### Novel-Idea Meter\nthings"


/- ------------------------------------------------------------------
   Insight-enrichment fold lemmas (for C8 and C10)
   ------------------------------------------------------------------ -/

/-- Following the amended C8 claim's wording: the value of a stripped
line that is a bullet whose colon-label contains `sentiment` but none
of `stats`/`tools`/`links` (the code's branch chain checks those
first). -/
def sentimentBulletValue (line : Str) : Option Str :=
  let ls := pyStrip line
  if (str "-").isPrefixOf ls || (str "*").isPrefixOf ls
      || enrichBulletSeq.isPrefixOf ls then
    match enrichSplitLabel (pyStrip (enrichSubBullet ls)) with
    | some (label0, value0) =>
      let label := lowerStr (pyStrip label0)
      if containsSub (str "stats") label || containsSub (str "tools") label
          || containsSub (str "links") label then none
      else if containsSub (str "sentiment") label then some (pyStrip value0)
      else none
    | none => none
  else none


/-- The value of the LAST sentiment bullet of the section body (the
loop overwrites the sentiment, so the last one wins). -/
def lastSentimentValue (text : Str) : Option Str :=
  ((splitOnChar '\n' text).filterMap sentimentBulletValue).getLast?


/-- The sentiment mapping written from the claim's words: positive if
the value contains "positive" or "admiring", negative if it contains
"negative" or "critical", else neutral. -/
def specSentiment (value : Str) : Str :=
  let lv := lowerStr value
  if containsSub (str "positive") lv || containsSub (str "admiring") lv then
    str "positive"
  else if containsSub (str "negative") lv || containsSub (str "critical") lv then
    str "negative"
  else str "neutral"


/-- Does this line take any labeled-bullet branch of
`_parse_insight_enrichment`'s loop? -/
def enrichLineMatched (line : Str) : Bool :=
  let ls := pyStrip line
  if (str "-").isPrefixOf ls || (str "*").isPrefixOf ls
      || enrichBulletSeq.isPrefixOf ls then
    match enrichSplitLabel (pyStrip (enrichSubBullet ls)) with
    | some (label0, _) =>
      let label := lowerStr (pyStrip label0)
      (containsSub (str "stats") label || containsSub (str "tools") label
          || containsSub (str "links") label)
        || containsSub (str "sentiment") label
        || (containsSub (str "risks") label || containsSub (str "blockers") label
          || containsSub (str "questions") label)
    | none => false
  else false


/-- The Insight Enrichment section key. -/
def ieKey : Str := str "insight enrichment"


/-- A section whose single bullet's label (`stats sentiment`) contains
`sentiment` and whose value contains `positive`. -/
def c8CexDoc : Str :=
  str "## Insight Enrichment\n- stats sentiment: positive figures"


/-- Scenario E's section: `- Sentiment: generally admiring`. -/
def c8Doc : Str :=
  str "## Insight Enrichment\n- Sentiment: generally admiring"


/-- An Insight Enrichment section with a nonempty body and no
labeled bullet line. -/
def c10Doc : Str := str "## Insight Enrichment\nhello world"


/- ==================================================================
   Claim theorems and supporting lemmas
   ================================================================== -/

/-- C1: for every input on which parse returns a record, the record's
`full_content` field is exactly the input text, character for
character. -/
theorem C1_full_content_roundtrip :
    ∀ content : Str,
      (parse_gumloop_summary content).elim True
        (fun s => s.full_content = content) :=
  fun _ => rfl


/-- C2: `parse_gumloop_summary` never propagates an exception: it is
a total function into `Option`, whose try-body
(`parse_gumloop_summaryE`) is built from total sub-parsers, so on
every input the except-boundary receives a normal return and yields a
record (it would convert an `Except.error` — a raised exception — to
`none`). -/
theorem C2_parse_never_raises :
    ∀ content : Str, ∃ s, parse_gumloop_summary content = some s :=
  fun _ => ⟨_, rfl⟩


/-- C3 counterexample: an input containing at least 4 canonical
markers for which `is_gumloop_summary` nevertheless returns `false`,
because the input is shorter than 100 characters — refuting the claim
as stated. -/
theorem C3_counterexample :
    4 ≤ marker_count c3ShortDoc ∧ is_gumloop_summary c3ShortDoc = false := by
  decide


/-- C3 (amended): for inputs of at least 100 characters containing at
least 4 canonical markers, `is_gumloop_summary` returns `true`; for
inputs containing at most 1 it returns `false`. -/
theorem C3_marker_threshold :
    ∀ content : Str,
      (¬ content.length < 100 → 4 ≤ marker_count content →
        is_gumloop_summary content = true) ∧
      (marker_count content ≤ 1 → is_gumloop_summary content = false) := by
  intro content
  constructor
  · intro h1 h2
    have hne : content.isEmpty = false := by
      cases content with
      | nil => simp at h1
      | cons a t => rfl
    simp [is_gumloop_summary, hne, h1, h2]
  · intro h
    have h4 : ¬ 4 ≤ marker_count content := by omega
    simp [is_gumloop_summary, h4]


theorem C3_marker_threshold_witness :
    is_gumloop_summary c3LongDoc = true ∧ is_gumloop_summary (str "ab") = false :=
  ⟨(C3_marker_threshold c3LongDoc).1 (by decide) (by decide),
   (C3_marker_threshold (str "ab")).2 (by decide)⟩


/-- C4 counterexample: an input with none of the learning-pack
sections, on which parse returns a PRESENT learning pack whose
sub-lists are all empty — not an absent (`none`) field as the claim
states. -/
theorem C4_counterexample :
    (parse_gumloop_summary (str "just some prose")).map
        (fun s => s.accelerated_learning_pack) =
      some (some ⟨[], [], [], [], []⟩) := by
  decide


/-- C5: parsing the pipe-table scenario yields exactly one framework
`{name: "Loop", description: "Explains loop"}` (the separator row
`|---|---|` of the markdown table is what switches the parser into
table mode; the header row before it is skipped). -/
theorem C5_framework_table_scenario :
    (parse_gumloop_summary c5Doc).map (fun s => s.frameworks) =
      some [⟨str "Loop", str "Explains loop"⟩] := by
  decide


/-- C7 (code bug): on the claim's input line
`– **03:21** → Something happens` the parser produces NO key moment,
because the source file is double-encoded: its dash character class
holds the codepoints `â`, `€`, `“` (the mojibake of `–`) rather than
the en dash itself, and its arrow alternation holds `â†’` (the
mojibake of `→`) or `->`.  The second conjunct shows the same line
with `-` and `->` parses to exactly the claimed moment, confirming
the pattern (not the pipeline) is at fault. -/
theorem C7_key_moment_mojibake_bug :
    (parse_gumloop_summary c7RealDoc).map (fun s => s.key_moments) = some [] ∧
    (parse_gumloop_summary c7AsciiDoc).map (fun s => s.key_moments) =
      some [⟨str "03:21", str "Something happens"⟩] := by
  decide


/-- C9: `extract_key_points_from_gumloop` returns between 0 and 5
entries inclusive for every record (and, being a total Lean function,
never raises). -/
theorem C9_key_points_bound :
    ∀ s : GumloopSummary,
      0 ≤ (extract_key_points_from_gumloop s).length ∧
      (extract_key_points_from_gumloop s).length ≤ 5 := by
  intro s
  exact ⟨Nat.zero_le _, List.length_take_le _ _⟩




/- ------------------------------------------------------------------
   Substring / section-splitter lemmas (for C4 and C6)
   ------------------------------------------------------------------ -/

theorem containsSub_infix_iff (pat : Str) :
    ∀ s : Str, containsSub pat s = true ↔ pat <:+: s := by
  intro s
  induction s with
  | nil => simp [containsSub, List.isEmpty_iff, List.infix_nil]
  | cons c t ih =>
    simp [containsSub, List.isPrefixOf_iff_prefix, ih, List.infix_cons_iff]


theorem findSub_isSome (pat : Str) :
    ∀ s : Str, (findSub pat s).isSome = containsSub pat s := by
  intro s
  induction s with
  | nil => cases h : pat.isEmpty <;> simp [findSub, containsSub, h]
  | cons c t ih => cases h : pat.isPrefixOf (c :: t) <;> simp [findSub, containsSub, h, ih]


theorem findSub_eq_none_of (pat s : Str) (h : containsSub pat s = false) :
    findSub pat s = none := by
  have hs := findSub_isSome pat s
  rw [h] at hs
  cases hf : findSub pat s with
  | none => rfl
  | some v => rw [hf] at hs; exact absurd hs (by simp)


theorem extractMarkdownContent_slice (content : Str) :
    extractMarkdownContent content <:+: content := by
  unfold extractMarkdownContent
  split
  · exact List.infix_refl _
  · next i hi =>
    dsimp only
    split
    · exact List.IsSuffix.isInfix (List.drop_suffix _ _)
    · next j hj =>
      have h1 := List.IsPrefix.isInfix
        (List.take_prefix j (List.drop (i + (str "```markdown").length) content))
      have h2 := List.IsSuffix.isInfix
        (List.drop_suffix (i + (str "```markdown").length) content)
      exact List.IsInfix.trans h1 h2


theorem find?_sectionsGo_eq_none (md key : Str) :
    ∀ hs : List Str,
      (∀ x ∈ hs, cleanHeaderName x = key → findSub x md = none) →
      (sectionsGo md hs).find? (fun p => decide (p.1 = key)) = none := by
  intro hs
  induction hs with
  | nil => intro _; rfl
  | cons x rest ih =>
    intro h
    simp only [sectionsGo]
    cases hfs : findSub x md with
    | none =>
      simp only [List.nil_append]
      exact ih (fun y hy hc => h y (List.mem_cons_of_mem _ hy) hc)
    | some i =>
      have hne : ¬ (cleanHeaderName x = key) := by
        intro he
        have hx := h x (List.mem_cons_self _ _) he
        rw [hfs] at hx
        exact Option.noConfusion hx
      simp only [List.singleton_append, List.find?_cons, decide_eq_false hne]
      exact ih (fun y hy hc => h y (List.mem_cons_of_mem _ hy) hc)


theorem sectionBody_eq_nil (content key : Str)
    (h : ∀ x ∈ section_headers, cleanHeaderName x = key →
           containsSub x content = false) :
    sectionBody content key = [] := by
  have hmd : ∀ x ∈ section_headers, cleanHeaderName x = key →
      findSub x (extractMarkdownContent content) = none := by
    intro x hx hc
    cases hb : containsSub x (extractMarkdownContent content) with
    | false => exact findSub_eq_none_of _ _ hb
    | true =>
      exfalso
      have hinf := (containsSub_infix_iff x _).mp hb
      have hic := (containsSub_infix_iff x content).mpr
        (hinf.trans (extractMarkdownContent_slice content))
      rw [h x hx hc] at hic
      exact Bool.noConfusion hic
  unfold sectionBody sectGet _extract_sections
  rw [find?_sectionsGo_eq_none _ _ _ hmd]


/-- Of the fixed header list, `header` is the only one whose cleaned
name is `key`, and it does not occur in the content: then the section
body is empty. -/
theorem sectionBody_eq_nil_of_unique (content header key : Str)
    (huniq : ∀ x ∈ section_headers, cleanHeaderName x = key → x = header)
    (hcf : containsSub header content = false) :
    sectionBody content key = [] := by
  apply sectionBody_eq_nil
  intro x hx hc
  rw [huniq x hx hc]
  exact hcf


/-- Guard lemma: `_parse_flashcards` returns `[]` whenever its input
does not contain the phrase `feynman flashcards`. -/
theorem _parse_flashcards_guard (t : Str)
    (h : containsSub (str "feynman flashcards") (lowerStr t) = false) :
    _parse_flashcards t = [] := by
  simp [_parse_flashcards, h]


theorem _parse_glossary_guard (t : Str)
    (h : containsSub (str "glossary") (lowerStr t) = false) :
    _parse_glossary t = [] := by
  simp [_parse_glossary, h]


theorem _parse_quiz_guard (t : Str)
    (h : containsSub (str "quick quiz") (lowerStr t) = false) :
    _parse_quiz t = [] := by
  simp [_parse_quiz, h]


theorem _parse_novel_ideas_guard (t : Str)
    (h1 : containsSub (str "novel-idea meter") (lowerStr t) = false)
    (h2 : containsSub (str "novel idea meter") (lowerStr t) = false) :
    _parse_novel_ideas t = [] := by
  simp [_parse_novel_ideas, h1, h2]




/-- C4 (amended): for every input in which none of the learning-pack
section headers occurs, parse returns a PRESENT learning-pack record
whose four sub-lists are all empty (with `tldr100` taken from the
TL;DR section) — not an absent/`None` field. -/
theorem C4_learning_pack_empties :
    ∀ content : Str,
      containsSub (str "### Feynman Flashcards") content = false →
      containsSub (str "### Glossary") content = false →
      containsSub (str "### Quick Quiz") content = false →
      containsSub (str "### Novel-Idea Meter") content = false →
      (parse_gumloop_summary content).elim True (fun s =>
        ∃ t, s.accelerated_learning_pack = some ⟨t, [], [], [], []⟩) := by
  intro content h1 h2 h3 h4
  have e1 := sectionBody_eq_nil_of_unique content
    (str "### Feynman Flashcards") (str "feynman flashcards") (by decide) h1
  have e2 := sectionBody_eq_nil_of_unique content
    (str "### Glossary") (str "glossary") (by decide) h2
  have e3 := sectionBody_eq_nil_of_unique content
    (str "### Quick Quiz") (str "quick quiz") (by decide) h3
  have e4 := sectionBody_eq_nil_of_unique content
    (str "### Novel-Idea Meter") (str "novel-idea meter") (by decide) h4
  simp only [sectionBody] at e1 e2 e3 e4
  show ∃ t, _parse_accelerated_learning_pack_from_sections
      (_extract_sections content) = some ⟨t, [], [], [], []⟩
  refine ⟨pyStrip (sectGet (_extract_sections content) tldrKey), ?_⟩
  simp only [_parse_accelerated_learning_pack_from_sections]
  rw [e1, e2, e3, e4]
  rfl


theorem C4_learning_pack_empties_witness :
    (parse_gumloop_summary (str "plain text")).elim True (fun s =>
      ∃ t, s.accelerated_learning_pack = some ⟨t, [], [], [], []⟩) :=
  C4_learning_pack_empties (str "plain text")
    (by decide) (by decide) (by decide) (by decide)


/-- C6: each learning-pack sub-list of the parse result is empty
unless the body of its section (as delivered by the splitter, which
strips the header line) itself contains the corresponding title
phrase — each sub-parser guards on that phrase and returns `[]` when
it is absent. -/
theorem C6_learning_pack_guards :
    ∀ content : Str,
      (parse_gumloop_summary content).elim True (fun s =>
        s.accelerated_learning_pack.elim True (fun p =>
          (containsSub (str "feynman flashcards")
              (lowerStr (sectionBody content (str "feynman flashcards"))) = false →
            p.feynman_flashcards = []) ∧
          (containsSub (str "glossary")
              (lowerStr (sectionBody content (str "glossary"))) = false →
            p.glossary = []) ∧
          (containsSub (str "quick quiz")
              (lowerStr (sectionBody content (str "quick quiz"))) = false →
            p.quick_quiz = []) ∧
          (containsSub (str "novel-idea meter")
              (lowerStr (sectionBody content (str "novel-idea meter"))) = false →
           containsSub (str "novel idea meter")
              (lowerStr (sectionBody content (str "novel-idea meter"))) = false →
            p.novel_idea_meter = []))) := by
  intro content
  refine ⟨fun h => ?_, fun h => ?_, fun h => ?_, fun h1 h2 => ?_⟩
  · exact _parse_flashcards_guard _ h
  · exact _parse_glossary_guard _ h
  · exact _parse_quiz_guard _ h
  · exact _parse_novel_ideas_guard _ h1 h2


set_option maxRecDepth 40000 in
theorem C6_learning_pack_guards_witness :
    (parse_gumloop_summary c6Doc).elim True (fun s =>
      s.accelerated_learning_pack.elim True (fun p =>
        p.feynman_flashcards = [] ∧ p.glossary = [] ∧
        p.quick_quiz = [] ∧ p.novel_idea_meter = [])) := by
  have h := C6_learning_pack_guards c6Doc
  exact ⟨h.1 (by decide), h.2.1 (by decide), h.2.2.1 (by decide),
         h.2.2.2 (by decide) (by decide)⟩




theorem enrichStep_sentiment (st : GumloopInsightEnrichment) (l : Str) :
    (enrichStep st l).sentiment =
      match sentimentBulletValue l with
      | some v => classifySentiment v
      | none => st.sentiment := by
  simp only [enrichStep, sentimentBulletValue]
  split
  · split
    · split_ifs <;> rfl
    · rfl
  · rfl


theorem foldl_enrichStep_sentiment :
    ∀ (lines : List Str) (st : GumloopInsightEnrichment),
      (lines.foldl enrichStep st).sentiment =
        match (lines.filterMap sentimentBulletValue).getLast? with
        | some v => classifySentiment v
        | none => st.sentiment := by
  intro lines
  induction lines with
  | nil => intro st; rfl
  | cons l rest ih =>
    intro st
    rw [List.foldl_cons, ih (enrichStep st l), List.filterMap_cons]
    cases hl : sentimentBulletValue l with
    | none =>
      rw [enrichStep_sentiment]
      simp only [hl]
    | some v =>
      rw [enrichStep_sentiment]
      simp only [hl, List.getLast?_cons]
      cases hL : (rest.filterMap sentimentBulletValue).getLast? with
      | none => simp [hL]
      | some w => simp [hL]


theorem enrichStep_eq_self (st : GumloopInsightEnrichment) (l : Str)
    (h : enrichLineMatched l = false) : enrichStep st l = st := by
  cases hb : ((str "-").isPrefixOf (pyStrip l) || (str "*").isPrefixOf (pyStrip l)
      || enrichBulletSeq.isPrefixOf (pyStrip l)) with
  | false => simp [enrichStep, hb]
  | true =>
    cases hsp : enrichSplitLabel (pyStrip (enrichSubBullet (pyStrip l))) with
    | none => simp [enrichStep, hb, hsp]
    | some lv =>
      obtain ⟨label0, value0⟩ := lv
      simp [enrichLineMatched, hb, hsp] at h
      simp [enrichStep, hb, hsp]
      split_ifs with hc1 hc2 hc3 <;> simp_all


theorem foldl_enrichStep_id :
    ∀ (lines : List Str) (st : GumloopInsightEnrichment),
      (∀ l ∈ lines, enrichLineMatched l = false) →
      lines.foldl enrichStep st = st := by
  intro lines
  induction lines with
  | nil => intro st _; rfl
  | cons l rest ih =>
    intro st h
    rw [List.foldl_cons, enrichStep_eq_self st l (h l (List.mem_cons_self _ _))]
    exact ih st (fun y hy => h y (List.mem_cons_of_mem _ hy))


theorem pie_none_iff (t : Str) :
    _parse_insight_enrichment t = none ↔ t = [] := by
  unfold _parse_insight_enrichment
  cases t <;> simp


theorem pie_default (t : Str) (h1 : t ≠ [])
    (h2 : ∀ l ∈ splitOnChar '\n' t, enrichLineMatched l = false) :
    _parse_insight_enrichment t = some ⟨[], str "neutral", []⟩ := by
  unfold _parse_insight_enrichment
  have hie : t.isEmpty = false := List.isEmpty_eq_false.mpr h1
  simp only [hie, Bool.false_eq_true, if_false]
  rw [foldl_enrichStep_id _ _ h2]


theorem pie_sentiment (t : Str) (h : t ≠ []) :
    (_parse_insight_enrichment t).elim False (fun e =>
      e.sentiment =
        match lastSentimentValue t with
        | some v => specSentiment v
        | none => str "neutral") := by
  unfold _parse_insight_enrichment
  have hie : t.isEmpty = false := List.isEmpty_eq_false.mpr h
  simp only [hie, Bool.false_eq_true, if_false, Option.elim]
  rw [foldl_enrichStep_sentiment]
  unfold lastSentimentValue
  cases hg : ((splitOnChar '\n' t).filterMap sentimentBulletValue).getLast? with
  | none => simp only [hg]
  | some v => simp only [hg]; rfl




/-- C8 counterexample: the section contains a bullet whose label
contains `sentiment` and whose value contains `positive`, yet the
parsed sentiment is `neutral` — the `stats`/`tools`/`links` branch is
checked first and consumes the bullet — refuting the claim as
stated. -/
theorem C8_counterexample :
    (parse_gumloop_summary c8CexDoc).map (fun s => s.insight_enrichment) =
        some (some ⟨[str "positive figures"], str "neutral", []⟩) ∧
    containsSub (str "sentiment") (str "stats sentiment") = true ∧
    containsSub (str "positive") (str "positive figures") = true := by
  decide


/-- C8 (amended): whenever the Insight Enrichment section body is
nonempty, the parsed sentiment is decided by the LAST bullet whose
label contains `sentiment` but none of `stats`/`tools`/`links` (those
branches take precedence): positive if its value contains `positive`
or `admiring`, negative if it contains `negative` or `critical`, else
neutral; and neutral when no such bullet exists. -/
theorem C8_last_sentiment_bullet :
    ∀ content : Str,
      sectionBody content ieKey ≠ [] →
      (parse_gumloop_summary content).elim True (fun s =>
        s.insight_enrichment.elim False (fun e =>
          e.sentiment =
            match lastSentimentValue (sectionBody content ieKey) with
            | some v => specSentiment v
            | none => str "neutral")) := by
  intro content hne
  exact pie_sentiment (sectionBody content ieKey) hne


set_option maxRecDepth 40000 in
theorem C8_last_sentiment_bullet_witness :
    (parse_gumloop_summary c8Doc).elim True (fun s =>
      s.insight_enrichment.elim False (fun e =>
        e.sentiment = str "positive")) := by
  have h := C8_last_sentiment_bullet c8Doc (by decide)
  exact h


/-- C10: the parse result's `insight_enrichment` field is `none`
exactly when the Insight Enrichment section is absent or its
(stripped) body is empty; on a nonempty body a record is always
present, and it is `⟨[], "neutral", []⟩` when no labeled bullet line
matched. -/
theorem C10_enrichment_presence :
    ∀ content : Str,
      (parse_gumloop_summary content).elim True (fun s =>
        (s.insight_enrichment = none ↔ sectionBody content ieKey = []) ∧
        (sectionBody content ieKey ≠ [] →
         (∀ l ∈ splitOnChar '\n' (sectionBody content ieKey),
            enrichLineMatched l = false) →
         s.insight_enrichment = some ⟨[], str "neutral", []⟩)) := by
  intro content
  exact ⟨pie_none_iff _, fun h1 h2 => pie_default _ h1 h2⟩


set_option maxRecDepth 40000 in
theorem C10_enrichment_presence_witness :
    (parse_gumloop_summary c10Doc).elim True (fun s =>
      s.insight_enrichment = some ⟨[], str "neutral", []⟩) := by
  have h := C10_enrichment_presence c10Doc
  exact h.2 (by decide) (by decide)



end Gumloop
